import Mathlib

/-!
Shallow embedding of the cellular-automata simulator in `src/index.tsx`.

Cells are JavaScript numbers that the program only ever sets to natural
values (0/1 bits in 1D, ages 0..100 in 2D), so they are modelled as `Nat`.
Pixel coordinates may be negative (pointer left/above the canvas), so they
are modelled as `Int`; JavaScript `Math.floor(a / b)` on them is `Int.fdiv`
and the JavaScript `%` operator on numbers is `Int.tmod` (remainder with
the sign of the dividend).  The `Math.random()` draws of `initGrid` are
abstracted into an oracle `rand : Nat → Nat → Bool` giving the outcome of
`Math.random() > 0.85` at each cell.  The throwing 1D branch of `step`
(reading `history[-1].length` on an empty history) is modelled by `Option`:
`none` is the thrown `TypeError`.
-/

namespace CellAuto

/-- `type Mode = '1D' | '2D'` from the source. -/
inductive Mode where
  | oneD
  | twoD
deriving DecidableEq, Repr

/-- `type ColorMode = 'Classic' | 'Age' | 'Density' | 'Cycle'` from the source. -/
inductive ColorMode where
  | Classic
  | Age
  | Density
  | Cycle
deriving DecidableEq, Repr

/-- The `Config` record of the source (presentation-only fields
`speed` and `trails` are not needed by the simulation operations). -/
structure Config where
  mode : Mode
  rule1D : Nat
  birth2D : List Nat
  survival2D : List Nat
  resolution : Nat
  hue : Int
  colorMode : ColorMode
deriving DecidableEq, Repr

/-- The mutable simulation state of the component:
`gridRef`, `historyRef`, the `generation` counter and `cycleHueRef`. -/
structure SimState where
  grid : List (List Nat)
  history : List (List Nat)
  generation : Nat
  cycleHue : Nat
deriving DecidableEq, Repr

/-- `Math.ceil(a / b)` for natural `a` and positive natural `b`. -/
def ceilDiv (a b : Nat) : Nat := (a + b - 1) / b

/-- `getRuleBits` from the source:
`rule.toString(2).padStart(8, '0').split('').reverse().map(Number)`. -/
def getRuleBits (rule : Nat) : List Nat :=
  let s := Nat.toDigits 2 rule
  ((List.replicate (8 - s.length) '0' ++ s).reverse).map (fun c => c.toNat - '0'.toNat)

/-- `initGrid(mode, res)` from the source; `width`/`height` stand for
`window.innerWidth`/`window.innerHeight` and `rand y x` for the outcome of
`Math.random() > 0.85` at cell `(y, x)`.  (The canvas-clearing side effect
is not part of the simulation state.) -/
def initGrid (mode : Mode) (res width height : Nat) (rand : Nat → Nat → Bool)
    (s : SimState) : SimState :=
  let cols := ceilDiv width res
  let rows := ceilDiv height res
  match mode with
  | Mode.twoD =>
      { s with
        grid := (List.range rows).map (fun y =>
          (List.range cols).map (fun x => if rand y x then 1 else 0)),
        generation := 0 }
  | Mode.oneD =>
      let firstRow := (List.replicate cols 0).set (cols / 2) 1
      { s with history := [firstRow], generation := 0 }

/-- The doubly nested neighbor loop of the 2D branch of `step`: counts the
live toroidal Moore neighbors of `(y, x)` in grid `g`, with
`rows`/`cols` the dimensions read off by `step`.  `g[ny][nx] > 0` with an
out-of-range index is `undefined > 0 = false` in JavaScript, hence the
default `0`. -/
def mooreCount (g : List (List Nat)) (rows cols y x : Nat) : Nat :=
  ([-1, 0, 1] : List Int).foldl (fun acc i =>
    ([-1, 0, 1] : List Int).foldl (fun acc j =>
      if i = 0 ∧ j = 0 then acc
      else
        let ny := (((y : Int) + i + (rows : Int)) % (rows : Int)).toNat
        let nx := (((x : Int) + j + (cols : Int)) % (cols : Int)).toNat
        if 0 < (g.getD ny []).getD nx 0 then acc + 1 else acc) acc) 0

/-- The `nextGrid` computation of the 2D branch of `step` (the
`gridRef.current.map((row, y) => row.map((age, x) => ...))` expression). -/
def nextGrid2D (cfg : Config) (g : List (List Nat)) : List (List Nat) :=
  g.mapIdx (fun y row =>
    row.mapIdx (fun x age =>
      if 0 < age then
        if mooreCount g g.length (g.headD []).length y x ∈ cfg.survival2D
        then min (age + 1) 100 else 0
      else
        if mooreCount g g.length (g.headD []).length y x ∈ cfg.birth2D then 1 else 0))

/-- The `next` row computation of the 1D branch of `step`:
`current.map((_, i) => ...)` looking up `bits[(left<<2)|(center<<1)|right]`.
The JavaScript index `(i - 1 + cols) % cols` is computed over ℤ with
`0 ≤ i` and `1 ≤ cols` at every call, so it equals `(i + cols - 1) % cols`
over ℕ.  `bits[patternIndex]` is `getD` with default `0`; with 0/1 cells
the index is at most 7, so the default is never read. -/
def nextRow (rule : Nat) (current : List Nat) : List Nat :=
  let bits := getRuleBits rule
  let cols := current.length
  current.mapIdx (fun i _ =>
    let left := current.getD ((i + cols - 1) % cols) 0
    let center := current.getD i 0
    let right := current.getD ((i + 1) % cols) 0
    let patternIndex := (left <<< 2) ||| (center <<< 1) ||| right
    bits.getD patternIndex 0)

/-- `step()` from the source.  `height` stands for the live
`window.innerHeight` read in the 1D branch.  The 2D branch returns early
(before `setGeneration`) when the grid has zero rows.  The 1D branch reads
`historyRef.current[historyRef.current.length - 1]` and then `.length` on
it, which throws a `TypeError` when the history is empty: that is `none`. -/
def step (cfg : Config) (height : Nat) (s : SimState) : Option SimState :=
  match cfg.mode with
  | Mode.twoD =>
      if s.grid.length = 0 then some s
      else
        some { s with
          grid := nextGrid2D cfg s.grid,
          generation := s.generation + 1,
          cycleHue := (s.cycleHue + 1) % 360 }
  | Mode.oneD =>
      match s.history.getLast? with
      | none => none
      | some current =>
          let next := nextRow cfg.rule1D current
          let pushed := s.history ++ [next]
          let maxRows := ceilDiv height cfg.resolution
          let newHistory := if maxRows < pushed.length then pushed.tail else pushed
          some { s with
            history := newHistory,
            generation := s.generation + 1,
            cycleHue := (s.cycleHue + 1) % 360 }

/-- `n` consecutive calls to `step`. -/
def stepN (cfg : Config) (height : Nat) : Nat → SimState → Option SimState
  | 0, s => some s
  | n + 1, s => (step cfg height s).bind (stepN cfg height n)

/-- JavaScript array indexing `l[i]` for a possibly negative index:
`undefined` (here `none`) off either end. -/
def jsIndex {α : Type} (l : List α) (i : Int) : Option α :=
  if 0 ≤ i then l.get? i.toNat else none

/-- The grid mutation of `handleCanvasInteraction`: a no-op in 1D mode;
otherwise maps the pixel position to a cell by
`Math.floor(coordinate / resolution)` and, when
`gridRef.current[y] && gridRef.current[y][x] !== undefined`, flips that
cell between dead and alive (age 1).  `px`/`py` stand for
`clientX - rect.left` / `clientY - rect.top`, which may be negative. -/
def toggleCell (cfg : Config) (px py : Int) (s : SimState) : SimState :=
  match cfg.mode with
  | Mode.oneD => s
  | Mode.twoD =>
      match jsIndex s.grid (Int.fdiv py (cfg.resolution : Int)) with
      | none => s
      | some row =>
          match jsIndex row (Int.fdiv px (cfg.resolution : Int)) with
          | none => s
          | some v =>
              { s with
                grid := s.grid.set (Int.fdiv py (cfg.resolution : Int)).toNat
                  (row.set (Int.fdiv px (cfg.resolution : Int)).toNat
                    (if 0 < v then 0 else 1)) }

/-- The components of the `hsla(h, s%, l%, 0.9)` string built by
`getCellColor`. -/
structure Color where
  h : Int
  s : Int
  l : Int
  a : ℚ
deriving DecidableEq, Repr

/-- `getCellColor(age, neighbors)` from the source.  `cycleHue` stands for
`cycleHueRef.current`.  JavaScript `%` is `Int.tmod`. -/
def getCellColor (cfg : Config) (cycleHue : Nat) (age : Nat) (neighbors : Nat) : Color :=
  match cfg.colorMode with
  | ColorMode.Age =>
      { h := Int.tmod (cfg.hue + (age : Int) * 8) 360, s := 80,
        l := if age = 1 then 85 else max 40 (70 - (age : Int)), a := 9 / 10 }
  | ColorMode.Density =>
      { h := Int.tmod (cfg.hue - (neighbors : Int) * 25) 360, s := 80,
        l := 40 + (neighbors : Int) * 5, a := 9 / 10 }
  | ColorMode.Cycle =>
      { h := (cycleHue : Int), s := 80, l := 60, a := 9 / 10 }
  | ColorMode.Classic =>
      { h := cfg.hue, s := 80, l := 60, a := 9 / 10 }

/-- The age stored at cell `(y, x)` of a grid, `0` off the grid. -/
def cellAt (g : List (List Nat)) (y x : Nat) : Nat := (g.getD y []).getD x 0

/-- All cell ages of a grid are at most 100. -/
def AgesOk (g : List (List Nat)) : Prop := ∀ y x : Nat, cellAt g y x ≤ 100

/-- The state has the buffer the current mode steps on: a non-empty grid in
2D mode, a non-empty history in 1D mode. `initGrid` establishes this. -/
def Ready (cfg : Config) (s : SimState) : Prop :=
  match cfg.mode with
  | Mode.twoD => s.grid ≠ []
  | Mode.oneD => s.history ≠ []

/-- A user-visible mutation of the simulation state: a simulation step or a
pointer interaction at a pixel position. -/
inductive Op where
  | doStep : Op
  | doToggle : Int → Int → Op

/-- Run one operation. -/
def applyOp (cfg : Config) (height : Nat) : Op → SimState → Option SimState
  | Op.doStep, s => step cfg height s
  | Op.doToggle px py, s => some (toggleCell cfg px py s)

/-- Run a sequence of operations. -/
def runOps (cfg : Config) (height : Nat) : List Op → SimState → Option SimState
  | [], s => some s
  | op :: rest, s => (applyOp cfg height op s).bind (runOps cfg height rest)

/-- The pure sequence of 1D generations: row `k` of the evolution of `r0`. -/
def rowSeq (rule : Nat) (r0 : List Nat) : Nat → List Nat
  | 0 => r0
  | k + 1 => nextRow rule (rowSeq rule r0 k)

/-- A `Config` whose Density-mode color only depends on the base hue. -/
def densityCfg (hue : Int) : Config :=
  { mode := Mode.twoD, rule1D := 110, birth2D := [3], survival2D := [2, 3],
    resolution := 8, hue := hue, colorMode := ColorMode.Density }

/-- The Rule-90 1D configuration (the `RULE90` preset). -/
def cfg90 : Config :=
  { mode := Mode.oneD, rule1D := 90, birth2D := [3], survival2D := [2, 3],
    resolution := 1, hue := 180, colorMode := ColorMode.Classic }

/-- The Game-of-Life 2D configuration (the `GOL` preset). -/
def cfgGOL : Config :=
  { mode := Mode.twoD, rule1D := 110, birth2D := [3], survival2D := [2, 3],
    resolution := 8, hue := 180, colorMode := ColorMode.Age }

/-- The state before any `initGrid` call: both buffers empty. -/
def emptyState : SimState := { grid := [], history := [], generation := 0, cycleHue := 0 }

/-- A 5×5 grid holding a horizontal blinker. -/
def blinkState : SimState :=
  { grid := [[0, 0, 0, 0, 0], [0, 0, 0, 0, 0], [0, 1, 1, 1, 0],
             [0, 0, 0, 0, 0], [0, 0, 0, 0, 0]],
    history := [], generation := 0, cycleHue := 0 }

/-- The first 8 generations of Rule 90 on a width-15 torus from a single
live center cell: the canonical Sierpinski triangle. -/
def sierpRows : List (List Nat) :=
  [[0, 0, 0, 0, 0, 0, 0, 1, 0, 0, 0, 0, 0, 0, 0],
   [0, 0, 0, 0, 0, 0, 1, 0, 1, 0, 0, 0, 0, 0, 0],
   [0, 0, 0, 0, 0, 1, 0, 0, 0, 1, 0, 0, 0, 0, 0],
   [0, 0, 0, 0, 1, 0, 1, 0, 1, 0, 1, 0, 0, 0, 0],
   [0, 0, 0, 1, 0, 0, 0, 0, 0, 0, 0, 1, 0, 0, 0],
   [0, 0, 1, 0, 1, 0, 0, 0, 0, 0, 1, 0, 1, 0, 0],
   [0, 1, 0, 0, 0, 1, 0, 0, 0, 1, 0, 0, 0, 1, 0],
   [1, 0, 1, 0, 1, 0, 1, 0, 1, 0, 1, 0, 1, 0, 1]]

/-! ## Generic list access lemmas -/

theorem getD_eq_get {α : Type} (l : List α) (d : α) (i : Nat) (h : i < l.length) :
    l.getD i d = l.get ⟨i, h⟩ := by
  rw [List.getD_eq_getElem?_getD, List.getElem?_eq_getElem h]
  simp [List.get_eq_getElem]

theorem getD_eq_of_len_le {α : Type} (l : List α) (d : α) (i : Nat) (h : l.length ≤ i) :
    l.getD i d = d := by
  rw [List.getD_eq_getElem?_getD, List.getElem?_eq_none h]
  rfl

theorem getD_mapIdx {α β : Type} (l : List α) (f : Nat → α → β) (i : Nat) (d : β)
    (h : i < l.length) :
    (l.mapIdx f).getD i d = f i (l.get ⟨i, h⟩) := by
  have h' : i < (l.mapIdx f).length := by
    simpa [List.length_mapIdx] using h
  rw [getD_eq_get _ _ _ h', ← List.get_mapIdx l f i h h']

theorem getD_set {α : Type} (l : List α) (n : Nat) (v : α) (i : Nat) (d : α) :
    (l.set n v).getD i d =
      if n = i ∧ n < l.length then v else l.getD i d := by
  rw [List.getD_eq_getElem?_getD, List.getD_eq_getElem?_getD, List.getElem?_set]
  by_cases h1 : n = i
  · subst h1
    by_cases h2 : n < l.length
    · simp [h2]
    · simp [h2, List.getElem?_eq_none (Nat.le_of_not_lt h2)]
  · simp [h1]

/-! ## Equations for `step` and `toggleCell` -/

theorem step_twoD (cfg : Config) (height : Nat) (s : SimState)
    (hmode : cfg.mode = Mode.twoD) (hne : s.grid ≠ []) :
    step cfg height s = some { s with
      grid := nextGrid2D cfg s.grid,
      generation := s.generation + 1,
      cycleHue := (s.cycleHue + 1) % 360 } := by
  have hlen : ¬ s.grid.length = 0 := by simpa [List.length_eq_zero] using hne
  unfold step
  rw [hmode]
  simp [hlen]

theorem step_twoD_empty (cfg : Config) (height : Nat) (s : SimState)
    (hmode : cfg.mode = Mode.twoD) (hg : s.grid = []) :
    step cfg height s = some s := by
  unfold step
  rw [hmode, hg]
  rfl

theorem step_oneD (cfg : Config) (height : Nat) (s : SimState) (current : List Nat)
    (hmode : cfg.mode = Mode.oneD) (hlast : s.history.getLast? = some current) :
    step cfg height s = some { s with
      history :=
        if ceilDiv height cfg.resolution < (s.history ++ [nextRow cfg.rule1D current]).length
        then (s.history ++ [nextRow cfg.rule1D current]).tail
        else s.history ++ [nextRow cfg.rule1D current],
      generation := s.generation + 1,
      cycleHue := (s.cycleHue + 1) % 360 } := by
  unfold step
  rw [hmode, hlast]

theorem step_oneD_empty (cfg : Config) (height : Nat) (s : SimState)
    (hmode : cfg.mode = Mode.oneD) (hh : s.history = []) :
    step cfg height s = none := by
  unfold step
  rw [hmode, hh]
  rfl

theorem cellAt_nextGrid2D (cfg : Config) (g : List (List Nat)) (y x : Nat)
    (hy : y < g.length) (hx : x < (g.getD y []).length) :
    cellAt (nextGrid2D cfg g) y x =
      (if 0 < cellAt g y x then
        if mooreCount g g.length (g.headD []).length y x ∈ cfg.survival2D
        then min (cellAt g y x + 1) 100 else 0
       else
        if mooreCount g g.length (g.headD []).length y x ∈ cfg.birth2D then 1 else 0) := by
  have hrow : g.getD y [] = g.get ⟨y, hy⟩ := getD_eq_get g [] y hy
  have hx' : x < (g.get ⟨y, hy⟩).length := by rwa [hrow] at hx
  unfold cellAt nextGrid2D
  rw [getD_mapIdx g _ y [] hy, getD_mapIdx (g.get ⟨y, hy⟩) _ x 0 hx', hrow,
    getD_eq_get _ 0 x hx']

theorem cellAt_nextGrid2D_le (cfg : Config) (g : List (List Nat)) (y x : Nat) :
    cellAt (nextGrid2D cfg g) y x ≤ 100 := by
  by_cases hy : y < g.length
  · by_cases hx : x < (g.getD y []).length
    · rw [cellAt_nextGrid2D cfg g y x hy hx]
      split
      · split <;> omega
      · split <;> omega
    · have hrow : g.getD y [] = g.get ⟨y, hy⟩ := getD_eq_get g [] y hy
      have hx' : ((g.get ⟨y, hy⟩).mapIdx (fun x age =>
          if 0 < age then
            if mooreCount g g.length (g.headD []).length y x ∈ cfg.survival2D
            then min (age + 1) 100 else 0
          else
            if mooreCount g g.length (g.headD []).length y x ∈ cfg.birth2D
            then 1 else 0)).length ≤ x := by
        rw [List.length_mapIdx, ← hrow]
        exact Nat.le_of_not_lt hx
      unfold cellAt nextGrid2D
      rw [getD_mapIdx g _ y [] hy, getD_eq_of_len_le _ _ _ hx']
      omega
  · have h1 : (nextGrid2D cfg g).length ≤ y := by
      unfold nextGrid2D
      rw [List.length_mapIdx]
      exact Nat.le_of_not_lt hy
    unfold cellAt
    rw [getD_eq_of_len_le _ _ _ h1]
    simp

theorem toggleCell_oneD (cfg : Config) (px py : Int) (s : SimState)
    (hmode : cfg.mode = Mode.oneD) : toggleCell cfg px py s = s := by
  unfold toggleCell
  rw [hmode]

theorem toggleCell_inBounds (cfg : Config) (px py : Int) (s : SimState)
    (hmode : cfg.mode = Mode.twoD)
    (hy : 0 ≤ Int.fdiv py (cfg.resolution : Int))
    (hx : 0 ≤ Int.fdiv px (cfg.resolution : Int))
    (hyl : (Int.fdiv py (cfg.resolution : Int)).toNat < s.grid.length)
    (hxl : (Int.fdiv px (cfg.resolution : Int)).toNat <
      (s.grid.getD (Int.fdiv py (cfg.resolution : Int)).toNat []).length) :
    toggleCell cfg px py s = { s with
      grid := s.grid.set (Int.fdiv py (cfg.resolution : Int)).toNat
        ((s.grid.getD (Int.fdiv py (cfg.resolution : Int)).toNat []).set
          (Int.fdiv px (cfg.resolution : Int)).toNat
          (if 0 < cellAt s.grid (Int.fdiv py (cfg.resolution : Int)).toNat
              (Int.fdiv px (cfg.resolution : Int)).toNat then 0 else 1)) } := by
  have hjy : jsIndex s.grid (Int.fdiv py (cfg.resolution : Int)) =
      some (s.grid.getD (Int.fdiv py (cfg.resolution : Int)).toNat []) := by
    unfold jsIndex
    rw [if_pos hy, getD_eq_get _ _ _ hyl]
    exact List.get?_eq_get hyl
  have hjx : jsIndex (s.grid.getD (Int.fdiv py (cfg.resolution : Int)).toNat [])
      (Int.fdiv px (cfg.resolution : Int)) =
      some (cellAt s.grid (Int.fdiv py (cfg.resolution : Int)).toNat
        (Int.fdiv px (cfg.resolution : Int)).toNat) := by
    unfold jsIndex cellAt
    rw [if_pos hx, getD_eq_get _ 0 _ hxl]
    exact List.get?_eq_get hxl
  unfold toggleCell
  rw [hmode, hjy]
  dsimp only
  rw [hjx]

theorem toggleCell_outBounds (cfg : Config) (px py : Int) (s : SimState)
    (hmode : cfg.mode = Mode.twoD)
    (h : ¬ (0 ≤ Int.fdiv py (cfg.resolution : Int) ∧
      (Int.fdiv py (cfg.resolution : Int)).toNat < s.grid.length ∧
      0 ≤ Int.fdiv px (cfg.resolution : Int) ∧
      (Int.fdiv px (cfg.resolution : Int)).toNat <
        (s.grid.getD (Int.fdiv py (cfg.resolution : Int)).toNat []).length)) :
    toggleCell cfg px py s = s := by
  unfold toggleCell
  rw [hmode]
  dsimp only
  rcases hjy : jsIndex s.grid (Int.fdiv py (cfg.resolution : Int)) with _ | row
  · rfl
  · dsimp only
    rcases hjx : jsIndex row (Int.fdiv px (cfg.resolution : Int)) with _ | v
    · rfl
    · exfalso
      apply h
      by_cases hy0 : 0 ≤ Int.fdiv py (cfg.resolution : Int)
      · by_cases hx0 : 0 ≤ Int.fdiv px (cfg.resolution : Int)
        · simp only [jsIndex, if_pos hy0] at hjy
          simp only [jsIndex, if_pos hx0] at hjx
          obtain ⟨hyl, hyget⟩ := List.get?_eq_some.mp hjy
          obtain ⟨hxl, _⟩ := List.get?_eq_some.mp hjx
          have hrow : s.grid.getD (Int.fdiv py (cfg.resolution : Int)).toNat [] = row := by
            rw [getD_eq_get _ _ _ hyl, hyget]
          exact ⟨hy0, hyl, hx0, by rw [hrow]; exact hxl⟩
        · simp only [jsIndex, if_neg hx0] at hjx
          exact Option.noConfusion hjx
      · simp only [jsIndex, if_neg hy0] at hjy
        exact Option.noConfusion hjy

/-! ## Arithmetic facts about the JavaScript remainder `Int.tmod` -/

theorem tmod_neg_dividend (a b : Int) : Int.tmod (-a) b = -Int.tmod a b := by
  rw [Int.tmod_def, Int.tmod_def, Int.neg_tdiv]
  ring

theorem tmod360_bounds (a : Int) : -360 < Int.tmod a 360 ∧ Int.tmod a 360 < 360 := by
  by_cases h : 0 ≤ a
  · have h1 := Int.tmod_nonneg 360 h
    have h2 := @Int.tmod_lt_of_pos a 360 (by norm_num)
    omega
  · have ha : 0 ≤ -a := by omega
    have h1 := Int.tmod_nonneg 360 ha
    have h2 := @Int.tmod_lt_of_pos (-a) 360 (by norm_num)
    have h3 : Int.tmod (-a) 360 = -Int.tmod a 360 := tmod_neg_dividend a 360
    omega

theorem tmod360_emod (a : Int) : Int.tmod a 360 % 360 = a % 360 := by
  rw [Int.tmod_def]
  omega

/-! ## Structure of the 2D step -/

theorem length_nextGrid2D (cfg : Config) (g : List (List Nat)) :
    (nextGrid2D cfg g).length = g.length := by
  unfold nextGrid2D
  rw [List.length_mapIdx]

theorem rowLength_nextGrid2D (cfg : Config) (g : List (List Nat)) (cols : Nat)
    (hrect : ∀ row ∈ g, row.length = cols) :
    ∀ row ∈ nextGrid2D cfg g, row.length = cols := by
  intro row hrow
  rw [List.mem_iff_get] at hrow
  obtain ⟨⟨i, hi⟩, hget⟩ := hrow
  have hlen : i < g.length := by
    rw [length_nextGrid2D] at hi
    exact hi
  unfold nextGrid2D at hget
  rw [List.get_mapIdx g _ i hlen] at hget
  rw [← hget, List.length_mapIdx]
  exact hrect _ (List.get_mem g i hlen)

theorem headD_length_of_rect (g : List (List Nat)) (cols : Nat) (hne : g ≠ [])
    (hrect : ∀ row ∈ g, row.length = cols) : (g.headD []).length = cols := by
  obtain ⟨r, t, rfl⟩ := List.exists_cons_of_ne_nil hne
  exact hrect r (List.mem_cons_self r t)

set_option maxRecDepth 10000

/-! ## The claims -/

/-- C1: for every non-empty rectangular 2D grid and any birth/survival
configuration, one `step` builds every cell of the new grid from the
pre-step grid's toroidal Moore neighbor count: alive iff (dead and count ∈
birth) or (alive and count ∈ survival); on survival the age becomes
`min (age+1) 100`, on birth 1, on death 0 — nothing reads cells already
updated in the same step. -/
theorem C1_step_2D (cfg : Config) (height : Nat) (s : SimState) (cols : Nat)
    (hmode : cfg.mode = Mode.twoD) (hne : s.grid ≠ [])
    (hrect : ∀ row ∈ s.grid, row.length = cols)
    (hb : ∀ m ∈ cfg.birth2D, m ≤ 8) (hsv : ∀ m ∈ cfg.survival2D, m ≤ 8) :
    ∃ s', step cfg height s = some s' ∧
      s'.history = s.history ∧
      s'.grid.length = s.grid.length ∧
      (∀ row ∈ s'.grid, row.length = cols) ∧
      (∀ y x, y < s.grid.length → x < cols →
        cellAt s'.grid y x =
          (if 0 < cellAt s.grid y x then
            if mooreCount s.grid s.grid.length cols y x ∈ cfg.survival2D
            then min (cellAt s.grid y x + 1) 100 else 0
           else
            if mooreCount s.grid s.grid.length cols y x ∈ cfg.birth2D then 1 else 0) ∧
        (0 < cellAt s'.grid y x ↔
          ((cellAt s.grid y x = 0 ∧
              mooreCount s.grid s.grid.length cols y x ∈ cfg.birth2D) ∨
           (0 < cellAt s.grid y x ∧
              mooreCount s.grid s.grid.length cols y x ∈ cfg.survival2D)))) := by
  have hcols : (s.grid.headD []).length = cols := headD_length_of_rect s.grid cols hne hrect
  refine ⟨_, step_twoD cfg height s hmode hne, rfl, ?_, ?_, ?_⟩
  · exact length_nextGrid2D cfg s.grid
  · exact rowLength_nextGrid2D cfg s.grid cols hrect
  · intro y x hy hx
    have hxd : x < (s.grid.getD y []).length := by
      rw [getD_eq_get s.grid [] y hy, hrect _ (List.get_mem s.grid y hy)]
      exact hx
    have hcell := cellAt_nextGrid2D cfg s.grid y x hy hxd
    rw [hcols] at hcell
    refine ⟨hcell, ?_⟩
    rw [hcell]
    by_cases h1 : 0 < cellAt s.grid y x
    · rw [if_pos h1]
      by_cases h2 : mooreCount s.grid s.grid.length cols y x ∈ cfg.survival2D
      · rw [if_pos h2]
        exact iff_of_true (by omega) (Or.inr ⟨h1, h2⟩)
      · rw [if_neg h2]
        refine iff_of_false (by omega) ?_
        rintro (⟨hz, _⟩ | ⟨_, hm⟩)
        · omega
        · exact h2 hm
    · rw [if_neg h1]
      by_cases h3 : mooreCount s.grid s.grid.length cols y x ∈ cfg.birth2D
      · rw [if_pos h3]
        exact iff_of_true (by omega) (Or.inl ⟨by omega, h3⟩)
      · rw [if_neg h3]
        refine iff_of_false (by omega) ?_
        rintro (⟨_, hm⟩ | ⟨ha, _⟩)
        · exact h3 hm
        · omega

theorem C1_witness :
    ∃ s', step cfgGOL 40 blinkState = some s' ∧
      s'.history = blinkState.history ∧
      s'.grid.length = blinkState.grid.length ∧
      (∀ row ∈ s'.grid, row.length = 5) ∧
      (∀ y x, y < blinkState.grid.length → x < 5 →
        cellAt s'.grid y x =
          (if 0 < cellAt blinkState.grid y x then
            if mooreCount blinkState.grid blinkState.grid.length 5 y x ∈ cfgGOL.survival2D
            then min (cellAt blinkState.grid y x + 1) 100 else 0
           else
            if mooreCount blinkState.grid blinkState.grid.length 5 y x ∈ cfgGOL.birth2D
            then 1 else 0) ∧
        (0 < cellAt s'.grid y x ↔
          ((cellAt blinkState.grid y x = 0 ∧
              mooreCount blinkState.grid blinkState.grid.length 5 y x ∈ cfgGOL.birth2D) ∨
           (0 < cellAt blinkState.grid y x ∧
              mooreCount blinkState.grid blinkState.grid.length 5 y x ∈ cfgGOL.survival2D)))) :=
  C1_step_2D cfgGOL 40 blinkState 5 rfl (by decide) (by decide) (by decide) (by decide)

theorem ceilDiv_pos (a b : Nat) (ha : 1 ≤ a) (hb : 1 ≤ b) : 1 ≤ ceilDiv a b := by
  unfold ceilDiv
  rw [Nat.le_div_iff_mul_le hb]
  omega

theorem initGrid_generation (mode : Mode) (res width height : Nat)
    (rand : Nat → Nat → Bool) (s : SimState) :
    (initGrid mode res width height rand s).generation = 0 := by
  cases mode <;> rfl

theorem initGrid_ready (cfg : Config) (width height : Nat) (rand : Nat → Nat → Bool)
    (s : SimState) (hres : 1 ≤ cfg.resolution) (hh : 1 ≤ height) :
    Ready cfg (initGrid cfg.mode cfg.resolution width height rand s) := by
  unfold Ready
  cases hmode : cfg.mode
  · unfold initGrid
    dsimp only
    simp
  · unfold initGrid
    dsimp only
    apply List.length_pos.mp
    rw [List.length_map, List.length_range]
    exact ceilDiv_pos height cfg.resolution hh hres

theorem step_ready (cfg : Config) (height : Nat) (s : SimState) (h : Ready cfg s) :
    ∃ s', step cfg height s = some s' ∧ s'.generation = s.generation + 1 ∧
      Ready cfg s' := by
  cases hmode : cfg.mode
  · have hne : s.history ≠ [] := by
      unfold Ready at h
      rw [hmode] at h
      exact h
    obtain ⟨current, hlast⟩ : ∃ c, s.history.getLast? = some c := by
      rcases hcl : s.history.getLast? with _ | c
      · exact absurd (List.getLast?_eq_none_iff.mp hcl) hne
      · exact ⟨c, rfl⟩
    refine ⟨_, step_oneD cfg height s current hmode hlast, rfl, ?_⟩
    unfold Ready
    rw [hmode]
    dsimp only
    apply List.length_pos.mp
    have hpos : 0 < s.history.length := List.length_pos.mpr hne
    split
    · rw [List.length_tail, List.length_append]
      simp
      omega
    · rw [List.length_append]
      simp
  · have hne : s.grid ≠ [] := by
      unfold Ready at h
      rw [hmode] at h
      exact h
    refine ⟨_, step_twoD cfg height s hmode hne, rfl, ?_⟩
    unfold Ready
    rw [hmode]
    dsimp only
    apply List.length_pos.mp
    rw [length_nextGrid2D]
    exact List.length_pos.mpr hne

theorem stepN_ready (cfg : Config) (height : Nat) (K : Nat) :
    ∀ s : SimState, Ready cfg s →
      ∃ s', stepN cfg height K s = some s' ∧
        s'.generation = s.generation + K ∧ Ready cfg s' := by
  induction K with
  | zero => exact fun s h => ⟨s, rfl, rfl, h⟩
  | succ n ih =>
      intro s h
      obtain ⟨s1, hstep, hgen, hready⟩ := step_ready cfg height s h
      obtain ⟨s', hsn, hgen', hready'⟩ := ih s1 hready
      refine ⟨s', ?_, by omega, hready'⟩
      show (step cfg height s).bind (stepN cfg height n) = some s'
      rw [hstep]
      exact hsn

/-- C5: the generation counter is 0 immediately after `initialize`, and
after `K` calls to `step` following an `initialize` it equals `K`, in both
modes — each such `step` increments it by exactly 1. -/
theorem C5_generation_counter (cfg : Config) (width height : Nat)
    (rand : Nat → Nat → Bool) (s : SimState) (K : Nat)
    (hres : 1 ≤ cfg.resolution) (hh : 1 ≤ height) :
    (initGrid cfg.mode cfg.resolution width height rand s).generation = 0 ∧
    ∃ s', stepN cfg height K
        (initGrid cfg.mode cfg.resolution width height rand s) = some s' ∧
      s'.generation = K := by
  refine ⟨initGrid_generation _ _ _ _ _ _, ?_⟩
  obtain ⟨s', h1, h2, _⟩ :=
    stepN_ready cfg height K _ (initGrid_ready cfg width height rand s hres hh)
  refine ⟨s', h1, ?_⟩
  rw [h2, initGrid_generation]
  omega

theorem C5_witness :
    (initGrid cfgGOL.mode cfgGOL.resolution 16 16 (fun y x => y == x)
      emptyState).generation = 0 ∧
    ∃ s', stepN cfgGOL 16 3
        (initGrid cfgGOL.mode cfgGOL.resolution 16 16 (fun y x => y == x)
          emptyState) = some s' ∧
      s'.generation = 3 :=
  C5_generation_counter cfgGOL 16 16 (fun y x => y == x) emptyState 3
    (by decide) (by decide)

theorem agesOk_nil : AgesOk ([] : List (List Nat)) := by
  intro y x
  unfold cellAt
  rw [getD_eq_of_len_le _ _ _ (by simp)]
  omega

theorem agesOk_of_cells_le (g : List (List Nat))
    (h : ∀ row ∈ g, ∀ a ∈ row, a ≤ 100) : AgesOk g := by
  intro y x
  unfold cellAt
  by_cases hy : y < g.length
  · rw [getD_eq_get g [] y hy]
    by_cases hx : x < (g.get ⟨y, hy⟩).length
    · rw [getD_eq_get _ 0 x hx]
      exact h _ (List.get_mem g y hy) _ (List.get_mem _ x hx)
    · rw [getD_eq_of_len_le _ _ _ (Nat.le_of_not_lt hx)]
      omega
  · rw [getD_eq_of_len_le _ _ _ (Nat.le_of_not_lt hy),
      getD_eq_of_len_le _ _ _ (by simp)]
    omega

theorem agesOk_initGrid (mode : Mode) (res width height : Nat)
    (rand : Nat → Nat → Bool) (s : SimState) (h : AgesOk s.grid) :
    AgesOk (initGrid mode res width height rand s).grid := by
  cases mode
  · exact h
  · apply agesOk_of_cells_le
    intro row hrow a ha
    unfold initGrid at hrow
    dsimp only at hrow
    rw [List.mem_map] at hrow
    obtain ⟨yy, _, rfl⟩ := hrow
    rw [List.mem_map] at ha
    obtain ⟨xx, _, rfl⟩ := ha
    split <;> omega

theorem agesOk_step (cfg : Config) (height : Nat) (s s' : SimState)
    (h : AgesOk s.grid) (hstep : step cfg height s = some s') :
    AgesOk s'.grid := by
  cases hmode : cfg.mode
  · rcases hcl : s.history.getLast? with _ | current
    · rw [step_oneD_empty cfg height s hmode (List.getLast?_eq_none_iff.mp hcl)]
        at hstep
      exact Option.noConfusion hstep
    · rw [step_oneD cfg height s current hmode hcl] at hstep
      have heq := Option.some.inj hstep
      subst heq
      exact h
  · by_cases hg : s.grid = []
    · rw [step_twoD_empty cfg height s hmode hg] at hstep
      have heq := Option.some.inj hstep
      subst heq
      exact h
    · rw [step_twoD cfg height s hmode hg] at hstep
      have heq := Option.some.inj hstep
      subst heq
      intro y x
      exact cellAt_nextGrid2D_le cfg s.grid y x

theorem agesOk_toggle (cfg : Config) (px py : Int) (s : SimState)
    (h : AgesOk s.grid) : AgesOk (toggleCell cfg px py s).grid := by
  cases hmode : cfg.mode
  · rw [toggleCell_oneD cfg px py s hmode]
    exact h
  · by_cases hin : (0 ≤ Int.fdiv py (cfg.resolution : Int) ∧
        (Int.fdiv py (cfg.resolution : Int)).toNat < s.grid.length ∧
        0 ≤ Int.fdiv px (cfg.resolution : Int) ∧
        (Int.fdiv px (cfg.resolution : Int)).toNat <
          (s.grid.getD (Int.fdiv py (cfg.resolution : Int)).toNat []).length)
    · obtain ⟨hy, hyl, hx, hxl⟩ := hin
      rw [toggleCell_inBounds cfg px py s hmode hy hx hyl hxl]
      intro y x
      unfold cellAt
      dsimp only
      rw [getD_set]
      split
      · rw [getD_set]
        split
        · split <;> omega
        · rename_i hcase _
          have := h (Int.fdiv py (cfg.resolution : Int)).toNat x
          unfold cellAt at this
          exact this
      · exact h y x
    · rw [toggleCell_outBounds cfg px py s hmode hin]
      exact h

theorem agesOk_runOps (cfg : Config) (height : Nat) (ops : List Op) :
    ∀ s s' : SimState, AgesOk s.grid → runOps cfg height ops s = some s' →
      AgesOk s'.grid := by
  induction ops with
  | nil =>
      intro s s' h hrun
      have heq := Option.some.inj hrun
      subst heq
      exact h
  | cons op rest ih =>
      intro s s' h hrun
      rcases op with _ | ⟨px, py⟩
      · rcases hstep : step cfg height s with _ | s1
        · have : runOps cfg height (Op.doStep :: rest) s = none := by
            show (step cfg height s).bind (runOps cfg height rest) = none
            rw [hstep]
            rfl
          rw [this] at hrun
          exact Option.noConfusion hrun
        · have hrun' : runOps cfg height rest s1 = some s' := by
            have : runOps cfg height (Op.doStep :: rest) s =
                (step cfg height s).bind (runOps cfg height rest) := rfl
            rw [this, hstep] at hrun
            exact hrun
          exact ih s1 s' (agesOk_step cfg height s s1 h hstep) hrun'
      · exact ih _ s' (agesOk_toggle cfg px py s h) hrun

/-- C7: after `initialize` and any sequence of `step` and `toggleCell`
operations, every cell age lies in 0..100; in a 2D step a surviving cell's
age becomes `min(age+1, 100)` — so an age of 100 is clamped at exactly
100 — and a dying cell's age is 0 in that same generation. -/
theorem C7_age_invariant (cfg : Config) (width height : Nat)
    (rand : Nat → Nat → Bool) (s0 : SimState) (ops : List Op) (s' : SimState)
    (h0 : AgesOk s0.grid)
    (hrun : runOps cfg height ops
      (initGrid cfg.mode cfg.resolution width height rand s0) = some s') :
    (∀ y x, 0 ≤ cellAt s'.grid y x ∧ cellAt s'.grid y x ≤ 100) ∧
    (∀ (t t' : SimState) (y x : Nat), cfg.mode = Mode.twoD →
      step cfg height t = some t' →
      y < t.grid.length → x < (t.grid.getD y []).length →
      ((0 < cellAt t.grid y x →
        mooreCount t.grid t.grid.length (t.grid.headD []).length y x ∈
          cfg.survival2D →
        cellAt t'.grid y x = min (cellAt t.grid y x + 1) 100) ∧
       (cellAt t.grid y x = 100 →
        mooreCount t.grid t.grid.length (t.grid.headD []).length y x ∈
          cfg.survival2D →
        cellAt t'.grid y x = 100) ∧
       (0 < cellAt t.grid y x →
        mooreCount t.grid t.grid.length (t.grid.headD []).length y x ∉
          cfg.survival2D →
        cellAt t'.grid y x = 0))) := by
  constructor
  · have hA := agesOk_runOps cfg height ops _ s'
      (agesOk_initGrid cfg.mode cfg.resolution width height rand s0 h0) hrun
    exact fun y x => ⟨Nat.zero_le _, hA y x⟩
  · intro t t' y x hmode hstep hy hx
    have hne : t.grid ≠ [] := by
      intro hc
      rw [hc] at hy
      exact Nat.not_lt_zero y hy
    rw [step_twoD cfg height t hmode hne] at hstep
    have heq := Option.some.inj hstep
    subst heq
    have hcell := cellAt_nextGrid2D cfg t.grid y x hy hx
    refine ⟨?_, ?_, ?_⟩
    · intro h1 h2
      rw [hcell, if_pos h1, if_pos h2]
    · intro h100 h2
      rw [hcell, if_pos (by omega), if_pos h2, h100]
      omega
    · intro h1 h2
      rw [hcell, if_pos h1, if_neg h2]

theorem C7_witness :
    (∀ y x,
      0 ≤ cellAt (SimState.mk [[1, 0], [0, 0]] [] 1 1).grid y x ∧
      cellAt (SimState.mk [[1, 0], [0, 0]] [] 1 1).grid y x ≤ 100) ∧
    (∀ (t t' : SimState) (y x : Nat), cfgGOL.mode = Mode.twoD →
      step cfgGOL 16 t = some t' →
      y < t.grid.length → x < (t.grid.getD y []).length →
      ((0 < cellAt t.grid y x →
        mooreCount t.grid t.grid.length (t.grid.headD []).length y x ∈
          cfgGOL.survival2D →
        cellAt t'.grid y x = min (cellAt t.grid y x + 1) 100) ∧
       (cellAt t.grid y x = 100 →
        mooreCount t.grid t.grid.length (t.grid.headD []).length y x ∈
          cfgGOL.survival2D →
        cellAt t'.grid y x = 100) ∧
       (0 < cellAt t.grid y x →
        mooreCount t.grid t.grid.length (t.grid.headD []).length y x ∉
          cfgGOL.survival2D →
        cellAt t'.grid y x = 0))) :=
  C7_age_invariant cfgGOL 16 16 (fun y x => y == x) emptyState
    [Op.doStep, Op.doToggle 3 5] (SimState.mk [[1, 0], [0, 0]] [] 1 1)
    agesOk_nil (by decide)

/-- C8: `toggleCell` is a no-op in 1D mode; in 2D mode it maps the pixel
position to a cell by integer division by the resolution, flips that cell
(any positive age to 0, age 0 to 1) when it is in bounds, and leaves the
state byte-for-byte unchanged, with no error, for every out-of-bounds
position. -/
theorem C8_toggle_cell (cfg : Config) (px py : Int) (s : SimState)
    (hres : 1 ≤ cfg.resolution) :
    (cfg.mode = Mode.oneD → toggleCell cfg px py s = s) ∧
    (cfg.mode = Mode.twoD →
      (∀ (hy : 0 ≤ Int.fdiv py (cfg.resolution : Int))
         (hyl : (Int.fdiv py (cfg.resolution : Int)).toNat < s.grid.length)
         (hx : 0 ≤ Int.fdiv px (cfg.resolution : Int))
         (hxl : (Int.fdiv px (cfg.resolution : Int)).toNat <
           (s.grid.getD (Int.fdiv py (cfg.resolution : Int)).toNat []).length),
        toggleCell cfg px py s = { s with
          grid := s.grid.set (Int.fdiv py (cfg.resolution : Int)).toNat
            ((s.grid.getD (Int.fdiv py (cfg.resolution : Int)).toNat []).set
              (Int.fdiv px (cfg.resolution : Int)).toNat
              (if 0 < cellAt s.grid (Int.fdiv py (cfg.resolution : Int)).toNat
                  (Int.fdiv px (cfg.resolution : Int)).toNat then 0 else 1)) }) ∧
      (¬ (0 ≤ Int.fdiv py (cfg.resolution : Int) ∧
          (Int.fdiv py (cfg.resolution : Int)).toNat < s.grid.length ∧
          0 ≤ Int.fdiv px (cfg.resolution : Int) ∧
          (Int.fdiv px (cfg.resolution : Int)).toNat <
            (s.grid.getD (Int.fdiv py (cfg.resolution : Int)).toNat []).length) →
        toggleCell cfg px py s = s)) :=
  ⟨fun hm => toggleCell_oneD cfg px py s hm,
   fun hm =>
     ⟨fun hy hyl hx hxl => toggleCell_inBounds cfg px py s hm hy hx hyl hxl,
      fun hout => toggleCell_outBounds cfg px py s hm hout⟩⟩

theorem C8_witness :
    (cfgGOL.mode = Mode.oneD → toggleCell cfgGOL 17 9 blinkState = blinkState) ∧
    (cfgGOL.mode = Mode.twoD →
      (∀ (hy : 0 ≤ Int.fdiv 9 ((cfgGOL.resolution : Nat) : Int))
         (hyl : (Int.fdiv 9 ((cfgGOL.resolution : Nat) : Int)).toNat <
           blinkState.grid.length)
         (hx : 0 ≤ Int.fdiv 17 ((cfgGOL.resolution : Nat) : Int))
         (hxl : (Int.fdiv 17 ((cfgGOL.resolution : Nat) : Int)).toNat <
           (blinkState.grid.getD
             (Int.fdiv 9 ((cfgGOL.resolution : Nat) : Int)).toNat []).length),
        toggleCell cfgGOL 17 9 blinkState = { blinkState with
          grid := blinkState.grid.set
            (Int.fdiv 9 ((cfgGOL.resolution : Nat) : Int)).toNat
            ((blinkState.grid.getD
                (Int.fdiv 9 ((cfgGOL.resolution : Nat) : Int)).toNat []).set
              (Int.fdiv 17 ((cfgGOL.resolution : Nat) : Int)).toNat
              (if 0 < cellAt blinkState.grid
                  (Int.fdiv 9 ((cfgGOL.resolution : Nat) : Int)).toNat
                  (Int.fdiv 17 ((cfgGOL.resolution : Nat) : Int)).toNat
                then 0 else 1)) }) ∧
      (¬ (0 ≤ Int.fdiv 9 ((cfgGOL.resolution : Nat) : Int) ∧
          (Int.fdiv 9 ((cfgGOL.resolution : Nat) : Int)).toNat <
            blinkState.grid.length ∧
          0 ≤ Int.fdiv 17 ((cfgGOL.resolution : Nat) : Int) ∧
          (Int.fdiv 17 ((cfgGOL.resolution : Nat) : Int)).toNat <
            (blinkState.grid.getD
              (Int.fdiv 9 ((cfgGOL.resolution : Nat) : Int)).toNat []).length) →
        toggleCell cfgGOL 17 9 blinkState = blinkState)) :=
  C8_toggle_cell cfgGOL 17 9 blinkState (by decide)

/-- C10: for every in-bounds pixel position in 2D mode, `toggleCell`
changes at most the single addressed cell — every other cell, the 1D
history buffer, the generation counter (and the cycle hue) are unchanged. -/
theorem C10_toggle_frame (cfg : Config) (px py : Int) (s : SimState)
    (hmode : cfg.mode = Mode.twoD)
    (hy : 0 ≤ Int.fdiv py (cfg.resolution : Int))
    (hyl : (Int.fdiv py (cfg.resolution : Int)).toNat < s.grid.length)
    (hx : 0 ≤ Int.fdiv px (cfg.resolution : Int))
    (hxl : (Int.fdiv px (cfg.resolution : Int)).toNat <
      (s.grid.getD (Int.fdiv py (cfg.resolution : Int)).toNat []).length) :
    (toggleCell cfg px py s).history = s.history ∧
    (toggleCell cfg px py s).generation = s.generation ∧
    (toggleCell cfg px py s).cycleHue = s.cycleHue ∧
    ∀ y x : Nat,
      ¬ (y = (Int.fdiv py (cfg.resolution : Int)).toNat ∧
         x = (Int.fdiv px (cfg.resolution : Int)).toNat) →
      cellAt (toggleCell cfg px py s).grid y x = cellAt s.grid y x := by
  rw [toggleCell_inBounds cfg px py s hmode hy hx hyl hxl]
  refine ⟨rfl, rfl, rfl, ?_⟩
  intro y x hne
  unfold cellAt
  dsimp only
  rw [getD_set]
  by_cases hcase : (Int.fdiv py (cfg.resolution : Int)).toNat = y ∧
      (Int.fdiv py (cfg.resolution : Int)).toNat < s.grid.length
  · rw [if_pos hcase, getD_set]
    have hxne : ¬ ((Int.fdiv px (cfg.resolution : Int)).toNat = x ∧
        (Int.fdiv px (cfg.resolution : Int)).toNat <
          (s.grid.getD (Int.fdiv py (cfg.resolution : Int)).toNat []).length) := by
      intro hc
      exact hne ⟨hcase.1.symm, hc.1.symm⟩
    rw [if_neg hxne, hcase.1]
  · rw [if_neg hcase]

theorem C10_witness :
    (toggleCell cfgGOL 17 9 blinkState).history = blinkState.history ∧
    (toggleCell cfgGOL 17 9 blinkState).generation = blinkState.generation ∧
    (toggleCell cfgGOL 17 9 blinkState).cycleHue = blinkState.cycleHue ∧
    ∀ y x : Nat,
      ¬ (y = (Int.fdiv 9 ((cfgGOL.resolution : Nat) : Int)).toNat ∧
         x = (Int.fdiv 17 ((cfgGOL.resolution : Nat) : Int)).toNat) →
      cellAt (toggleCell cfgGOL 17 9 blinkState).grid y x =
        cellAt blinkState.grid y x :=
  C10_toggle_frame cfgGOL 17 9 blinkState rfl (by decide) (by decide)
    (by decide) (by decide)

theorem getLast?_drop {α : Type} (l : List α) (d : Nat) (h : d < l.length) :
    (l.drop d).getLast? = l.getLast? := by
  rw [List.getLast?_eq_getElem?, List.getLast?_eq_getElem?, List.getElem?_drop,
    List.length_drop]
  congr 1
  omega

theorem stepN_succ_back (cfg : Config) (height : Nat) :
    ∀ (n : Nat) (s : SimState),
      stepN cfg height (n + 1) s = (stepN cfg height n s).bind (step cfg height) := by
  intro n
  induction n with
  | zero =>
      intro s
      show (step cfg height s).bind (stepN cfg height 0) =
        (some s).bind (step cfg height)
      rcases hstep : step cfg height s with _ | s1 <;> simp [stepN, hstep]
  | succ m ih =>
      intro s
      show (step cfg height s).bind (stepN cfg height (m + 1)) =
        ((step cfg height s).bind (stepN cfg height m)).bind (step cfg height)
      rcases hstep : step cfg height s with _ | s1
      · rfl
      · exact ih s1

theorem hist1D_after (cfg : Config) (height : Nat) (r0 : List Nat)
    (hmode : cfg.mode = Mode.oneD) (hB : 1 ≤ ceilDiv height cfg.resolution) :
    ∀ (k : Nat) (s : SimState), s.history = [r0] →
      ∃ s', stepN cfg height k s = some s' ∧
        s'.history = ((List.range (k + 1)).map (rowSeq cfg.rule1D r0)).drop
          (k + 1 - ceilDiv height cfg.resolution) := by
  intro k
  induction k with
  | zero =>
      intro s hs
      refine ⟨s, rfl, ?_⟩
      have hzero : 0 + 1 - ceilDiv height cfg.resolution = 0 := by omega
      rw [hs, hzero]
      rfl
  | succ k ih =>
      intro s hs
      obtain ⟨s1, hs1, hform⟩ := ih s hs
      have hdlt : k + 1 - ceilDiv height cfg.resolution <
          ((List.range (k + 1)).map (rowSeq cfg.rule1D r0)).length := by
        rw [List.length_map, List.length_range]
        omega
      have hlast : s1.history.getLast? = some (rowSeq cfg.rule1D r0 k) := by
        rw [hform, getLast?_drop _ _ hdlt, List.range_succ, List.map_append]
        exact List.getLast?_concat _
      have hstep := step_oneD cfg height s1 (rowSeq cfg.rule1D r0 k) hmode hlast
      refine ⟨{ s1 with
          history :=
            if ceilDiv height cfg.resolution <
                (s1.history ++ [nextRow cfg.rule1D (rowSeq cfg.rule1D r0 k)]).length
            then (s1.history ++ [nextRow cfg.rule1D (rowSeq cfg.rule1D r0 k)]).tail
            else s1.history ++ [nextRow cfg.rule1D (rowSeq cfg.rule1D r0 k)],
          generation := s1.generation + 1,
          cycleHue := (s1.cycleHue + 1) % 360 }, ?_, ?_⟩
      · rw [stepN_succ_back, hs1]
        exact hstep
      · dsimp only
        have hnext : nextRow cfg.rule1D (rowSeq cfg.rule1D r0 k) =
            rowSeq cfg.rule1D r0 (k + 1) := rfl
        have hsplit : (List.range (k + 1 + 1)).map (rowSeq cfg.rule1D r0) =
            (List.range (k + 1)).map (rowSeq cfg.rule1D r0) ++
              [rowSeq cfg.rule1D r0 (k + 1)] := by
          rw [List.range_succ, List.map_append]
          rfl
        have hdle : k + 1 - ceilDiv height cfg.resolution ≤
            ((List.range (k + 1)).map (rowSeq cfg.rule1D r0)).length := by
          rw [List.length_map, List.length_range]
          omega
        rw [hnext, hform, hsplit]
        by_cases hk : ceilDiv height cfg.resolution ≤ k + 1
        · have hcond : ceilDiv height cfg.resolution <
              (((List.range (k + 1)).map (rowSeq cfg.rule1D r0)).drop
                  (k + 1 - ceilDiv height cfg.resolution) ++
                [rowSeq cfg.rule1D r0 (k + 1)]).length := by
            rw [List.length_append, List.length_drop, List.length_map,
              List.length_range, List.length_singleton]
            omega
          rw [if_pos hcond, ← List.drop_append_of_le_length hdle, List.tail_drop]
          have harith : k + 1 - ceilDiv height cfg.resolution + 1 =
              k + 1 + 1 - ceilDiv height cfg.resolution := by omega
          rw [harith]
        · have hcond : ¬ (ceilDiv height cfg.resolution <
              (((List.range (k + 1)).map (rowSeq cfg.rule1D r0)).drop
                  (k + 1 - ceilDiv height cfg.resolution) ++
                [rowSeq cfg.rule1D r0 (k + 1)]).length) := by
            rw [List.length_append, List.length_drop, List.length_map,
              List.length_range, List.length_singleton]
            omega
          rw [if_neg hcond, ← List.drop_append_of_le_length hdle]
          have harith : k + 1 - ceilDiv height cfg.resolution =
              k + 1 + 1 - ceilDiv height cfg.resolution := by omega
          rw [harith]

/-- C6: in 1D mode, after any number `k` of steps following an
initialization the history length never exceeds
`B = ceil(viewportHeight / resolution)` — it is `min (k+1) B` — and the
history is exactly the `B` most recent generations of the rule's row
evolution in chronological order, the oldest row being evicted on each
step past the bound. -/
theorem C6_history_bound (cfg : Config) (width height : Nat)
    (rand : Nat → Nat → Bool) (s : SimState) (k : Nat)
    (hmode : cfg.mode = Mode.oneD) (hres : 1 ≤ cfg.resolution)
    (hh : 1 ≤ height) :
    ∃ s', stepN cfg height k
        (initGrid cfg.mode cfg.resolution width height rand s) = some s' ∧
      s'.history.length = min (k + 1) (ceilDiv height cfg.resolution) ∧
      s'.history.length ≤ ceilDiv height cfg.resolution ∧
      s'.history =
        ((List.range (k + 1)).map (rowSeq cfg.rule1D
          ((List.replicate (ceilDiv width cfg.resolution) 0).set
            (ceilDiv width cfg.resolution / 2) 1))).drop
          (k + 1 - ceilDiv height cfg.resolution) := by
  have hB : 1 ≤ ceilDiv height cfg.resolution :=
    ceilDiv_pos height cfg.resolution hh hres
  have hinit : (initGrid cfg.mode cfg.resolution width height rand s).history =
      [(List.replicate (ceilDiv width cfg.resolution) 0).set
        (ceilDiv width cfg.resolution / 2) 1] := by
    rw [hmode]
    rfl
  obtain ⟨s', h1, h2⟩ := hist1D_after cfg height _ hmode hB k _ hinit
  refine ⟨s', h1, ?_, ?_, h2⟩
  · rw [h2, List.length_drop, List.length_map, List.length_range]
    omega
  · rw [h2, List.length_drop, List.length_map, List.length_range]
    omega

theorem C6_witness :
    ∃ s', stepN cfg90 8 9
        (initGrid cfg90.mode cfg90.resolution 15 8 (fun _ _ => false)
          emptyState) = some s' ∧
      s'.history.length = min (9 + 1) (ceilDiv 8 cfg90.resolution) ∧
      s'.history.length ≤ ceilDiv 8 cfg90.resolution ∧
      s'.history =
        ((List.range (9 + 1)).map (rowSeq cfg90.rule1D
          ((List.replicate (ceilDiv 15 cfg90.resolution) 0).set
            (ceilDiv 15 cfg90.resolution / 2) 1))).drop
          (9 + 1 - ceilDiv 8 cfg90.resolution) :=
  C6_history_bound cfg90 15 8 (fun _ _ => false) emptyState 9 rfl
    (by decide) (by decide)

/-- C2: for every rule number `n` in 0..255, `getRuleBits n` is a sequence
of exactly 8 bits whose element at index `k` is the `k`-th least
significant bit of `n`; in particular `getRuleBits 30` and
`getRuleBits 110` are the two known fixed tables. -/
theorem C2_rule_bits (n : Nat) (h : n < 256) :
    (getRuleBits n).length = 8 ∧
    (∀ k, k < 8 → (getRuleBits n).getD k 0 = n / 2 ^ k % 2) ∧
    getRuleBits 30 = [0, 1, 1, 1, 1, 0, 0, 0] ∧
    getRuleBits 110 = [0, 1, 1, 1, 0, 1, 1, 0] := by
  revert h
  revert n
  decide

theorem C2_witness :
    (getRuleBits 30).length = 8 ∧
    (∀ k, k < 8 → (getRuleBits 30).getD k 0 = 30 / 2 ^ k % 2) ∧
    getRuleBits 30 = [0, 1, 1, 1, 1, 0, 0, 0] ∧
    getRuleBits 110 = [0, 1, 1, 1, 0, 1, 1, 0] :=
  C2_rule_bits 30 (by decide)

/-- C3: with rule 90, a width-15 1D history initialized to a single live
center cell (index 7), 7 calls to `step` produce the canonical
Sierpinski-triangle pattern, each successive row being the toroidal
rule-90 evolution of the previous one (`next[i] = left XOR right`). -/
theorem C3_rule90_sierpinski :
    (stepN cfg90 8 7 (initGrid Mode.oneD 1 15 8 (fun _ _ => false) emptyState)).map
        SimState.history = some sierpRows ∧
    sierpRows.getD 0 [] = (List.replicate 15 0).set 7 1 ∧
    (∀ j : Fin 7, ∀ i : Fin 15,
      (sierpRows.getD (j.1 + 1) []).getD i.1 0 =
        if (sierpRows.getD j.1 []).getD ((i.1 + 14) % 15) 0
            ≠ (sierpRows.getD j.1 []).getD ((i.1 + 1) % 15) 0 then 1 else 0) :=
  ⟨by decide, by decide, by decide⟩

/-- C4, counterexample: `step` in 1D mode on the pre-`initialize` empty
state is not a safe no-op — it fails (the source reads `.length` of
`history[-1]`, which is `undefined`). -/
theorem C4_counterexample : step cfg90 8 emptyState = none := by decide

/-- C4, amended: calling `step` on the empty pre-`initialize` state is a
safe no-op in 2D mode (zero rows returns the state unchanged), but in 1D
mode with an empty history `step` fails instead of being a no-op. -/
theorem C4_empty_step (cfg : Config) (height : Nat) (s : SimState) :
    (cfg.mode = Mode.twoD → s.grid = [] → step cfg height s = some s) ∧
    (cfg.mode = Mode.oneD → s.history = [] → step cfg height s = none) :=
  ⟨fun hm hg => step_twoD_empty cfg height s hm hg,
   fun hm hh => step_oneD_empty cfg height s hm hh⟩

theorem C4_witness :
    (step cfgGOL 8 emptyState = some emptyState) ∧
    (step cfg90 8 emptyState = none) :=
  ⟨(C4_empty_step cfgGOL 8 emptyState).1 rfl rfl,
   (C4_empty_step cfg90 8 emptyState).2 rfl rfl⟩

/-- C9, counterexample: in Density mode with base hue 0 and neighbor count
1, the produced hue is `-25` — the JavaScript remainder keeps the sign of
the dividend — not the claimed value `(0 - 25) mod 360 = 335` in
`[0, 360)`. -/
theorem C9_counterexample :
    (getCellColor (densityCfg 0) 0 1 1).h = -25 ∧
    (getCellColor (densityCfg 0) 0 1 1).h ≠ ((0 : Int) - 1 * 25) % 360 ∧
    ¬ (0 ≤ (getCellColor (densityCfg 0) 0 1 1).h) := by
  decide

/-- C9, amended: for every base hue in 0..360 and neighbor count in 0..8,
the Density-mode color has hue equal to the JavaScript remainder
`(baseHue - neighborCount*25) tmod 360` — a value in `(-360, 360)` that is
congruent to `(baseHue - neighborCount*25) mod 360` but can be negative —
lightness `40 + neighborCount*5`, saturation 80 and alpha 0.9. -/
theorem C9_density_color (hue n : Nat) (hhue : hue ≤ 360) (hn : n ≤ 8) :
    ∀ cycleHue age : Nat,
      getCellColor (densityCfg (hue : Int)) cycleHue age n =
        { h := Int.tmod ((hue : Int) - (n : Int) * 25) 360, s := 80,
          l := 40 + (n : Int) * 5, a := 9 / 10 } ∧
      -360 < Int.tmod ((hue : Int) - (n : Int) * 25) 360 ∧
      Int.tmod ((hue : Int) - (n : Int) * 25) 360 < 360 ∧
      Int.tmod ((hue : Int) - (n : Int) * 25) 360 % 360 =
        ((hue : Int) - (n : Int) * 25) % 360 := by
  intro cycleHue age
  exact ⟨rfl, (tmod360_bounds _).1, (tmod360_bounds _).2, tmod360_emod _⟩

theorem C9_witness :
    getCellColor (densityCfg ((200 : Nat) : Int)) 0 3 4 =
      { h := Int.tmod (((200 : Nat) : Int) - ((4 : Nat) : Int) * 25) 360, s := 80,
        l := 40 + ((4 : Nat) : Int) * 5, a := 9 / 10 } ∧
    -360 < Int.tmod (((200 : Nat) : Int) - ((4 : Nat) : Int) * 25) 360 ∧
    Int.tmod (((200 : Nat) : Int) - ((4 : Nat) : Int) * 25) 360 < 360 ∧
    Int.tmod (((200 : Nat) : Int) - ((4 : Nat) : Int) * 25) 360 % 360 =
      (((200 : Nat) : Int) - ((4 : Nat) : Int) * 25) % 360 :=
  C9_density_color 200 4 (by decide) (by decide) 0 3

end CellAuto
